import Mathlib

/-!
# Notification listener (`services/notification_listener.go`)

A shallow embedding of the listener: its lifecycle (`Start`, `Stop`), the
subscription registrar (`AddJob`), the dispatcher loop (`listenToLogs`), the
watcher lookup (`initrsWithLogAndAddress`) and the output decoder
(`FormatLogOutput`).

Conventions of the embedding.

* A Go call either returns or ends in a run-time panic: `Outcome`.
* A Go `error` is its message; `nil` is `none`.
* Everything the listener reaches outside its own file (the job store and its
  query engine, the transaction manager, the JSON codec, the logger, the run
  engine) is a field of `Store` or `JSON`, or an entry of the event trace.
  The answers of the store are those of one fixed store: the listener never
  writes to it.
* Calls that leave the listener are recorded, in program order, as `Event`s.
-/

namespace Chainlink

/-! ## Values -/

/-- One byte of a payload. -/
abbrev Byte := Fin 256

/-- A Go `error` value that is not nil, carried as its message. -/
abbrev GoError := String

/-- How a Go call ends: it returns a value or it panics at run time. -/
inductive Outcome (α : Type) where
  | returned (a : α)
  | runtimePanic (msg : String)
  deriving DecidableEq, Repr

/-- The `common.Address` of a contract; `hex` is what `String()` prints. -/
structure Address where
  hex : String
  deriving DecidableEq, Repr

/-- `Address.String()`. -/
def Address.String (a : Address) : String := a.hex

/-- `models.InitiatorEthLog`: the kind whose logs are passed on as they are
(the doc comment of `AddJob` spells the value). -/
def InitiatorEthLog : String := "ethlog"

/-- `models.InitiatorChainlinkLog`: the kind whose payload embeds a JSON
document. -/
def InitiatorChainlinkLog : String := "chainlinklog"

/-- `models.Initiator`: the fields the listener reads (`Type_` is the Go field
`Type`). -/
structure Initiator where
  ID : Nat
  JobID : String
  Type_ : String
  Address : Address
  deriving DecidableEq, Repr

/-- `models.Job`: an id and its initiators, in declaration order. -/
structure Job where
  ID : String
  Initiators : List Initiator
  deriving DecidableEq, Repr

/-- `store.EventLog`: the emitting address, the topics and the raw payload. -/
structure EventLog where
  Address : Address
  Topics : List (List Byte)
  Data : List Byte
  deriving DecidableEq, Repr

/-- `store.EthNotification`: the raw envelope received from the subscription. -/
structure EthNotification where
  Params : List Byte
  deriving DecidableEq, Repr

/-! ## Output decoder -/

/-- The JSON codec and the `models.Output` type it fills, neither of which is
declared in the listener's file. `zero` is the value of `var out models.Output`,
`composite` the value of the literal `models.Output{}`; `Unmarshal b out` is
`json.Unmarshal(b, &out)`: the value left in `out` and the error. -/
structure JSON (Output : Type) where
  zero : Output
  composite : Output
  Marshal : EventLog → Except GoError (List Byte)
  Unmarshal : List Byte → Output → Output × Option GoError

/-- The slice expression `b[lo:]`: it panics when `lo` exceeds the length. -/
def sliceFrom (b : List Byte) (lo : Nat) : Outcome (List Byte) :=
  if lo ≤ b.length then .returned (b.drop lo)
  else .runtimePanic "slice bounds out of range"

/-- `bytes.TrimRight(s, c)` for a cutset of the single byte `c`: the trailing
run of `c` is cut off. -/
def TrimRight (s : List Byte) (c : Byte) : List Byte :=
  (s.reverse.dropWhile (fun b => b == c)).reverse

/-- `convertEventLogToOutput`: marshal the log, unmarshal the bytes into `out`.
The returned output is the variable `out` as the call to `Unmarshal` left it. -/
def convertEventLogToOutput {Output : Type} (json : JSON Output) (el : EventLog) :
    Output × Option GoError :=
  let out := json.zero
  match json.Marshal el with
  | .error err => (out, some err)
  | .ok b => json.Unmarshal b out

/-- `parseEventLogJSON`: skip 64 bytes of the payload, cut the trailing null
bytes, unmarshal what is left. The slice `[64:]` is taken before anything
else and panics on a payload of fewer than 64 bytes. -/
def parseEventLogJSON {Output : Type} (json : JSON Output) (el : EventLog) :
    Outcome (Output × Option GoError) :=
  let out := json.zero
  match sliceFrom el.Data 64 with
  | .runtimePanic msg => .runtimePanic msg
  | .returned hex => .returned (json.Unmarshal (TrimRight hex 0) out)

/-- `FormatLogOutput`: choose the decoding by the initiator's type. -/
def FormatLogOutput {Output : Type} (json : JSON Output) (initr : Initiator)
    (el : EventLog) : Outcome (Output × Option GoError) :=
  if initr.Type_ = InitiatorEthLog then
    .returned (convertEventLogToOutput json el)
  else if initr.Type_ = InitiatorChainlinkLog then
    parseEventLogJSON json el
  else
    .returned (json.composite, some "no supported initiator type was found")

/-! ## The store, the query engine and the trace -/

/-- A value held in a field of a stored record. -/
inductive FieldValue where
  | address (a : Address)
  | string (s : String)
  | number (n : Nat)
  deriving DecidableEq, Repr

/-- The matchers of the query package `q` that the listener builds: `q.Eq`,
`q.Re` and the conjunction `q.And` of two matchers. -/
inductive Matcher where
  | Eq (field : String) (value : FieldValue)
  | Re (field : String) (re : String)
  | And (a b : Matcher)
  deriving DecidableEq, Repr

/-- The value of the field of an initiator record with the given Go name. -/
def Initiator.field (i : Initiator) (name : String) : Option FieldValue :=
  if name = "ID" then some (.number i.ID)
  else if name = "JobID" then some (.string i.JobID)
  else if name = "Type" then some (.string i.Type_)
  else if name = "Address" then some (.address i.Address)
  else none

/-- Whether `pat` occurs in `s` as a run of consecutive characters. -/
def occursIn (pat : List Char) : List Char → Bool
  | [] => pat.isEmpty
  | c :: cs => pat.isPrefixOf (c :: cs) || occursIn pat cs

/-- The regular-expression test of `q.Re` for a pattern made of letters only,
as is the one pattern the listener builds: a regular expression is not
anchored, so the string matches when the pattern occurs somewhere in it. -/
def MatchString (re s : String) : Bool := occursIn re.data s.data

/-- Whether a stored initiator satisfies a matcher: `q.Eq` compares the field
with the value, `q.Re` tests a string field against the regular expression. -/
def Matcher.Match : Matcher → Initiator → Bool
  | .Eq f v, i => decide (i.field f = some v)
  | .Re f re, i =>
    match i.field f with
    | some (.string s) => MatchString re s
    | _ => false
  | .And a b, i => a.Match i && b.Match i

/-- The transaction manager: `Subscribe(logs, address)` answers with an error
or nil. The channel is `none` when the listener's `logs` field is nil. -/
structure TxManager where
  Subscribe : Option Nat → String → Option GoError

/-- The job store as the listener sees it: the answer of `Jobs()`, the answers
of `FindJob(id)`, the persisted initiators in the order of the store, the
queries that the engine fails, and the transaction manager. -/
structure Store where
  Jobs : Except GoError (List Job)
  FindJob : String → Except GoError Job
  initiators : List Initiator
  findError : Matcher → Option GoError
  TxManager : TxManager

/-- Modelled from the spec: `Store.Select(m).Find(&sink)` of the job store,
whose code is not in the listener's file. A query that fails returns its error
and leaves the sink as it was; a query that succeeds puts into the sink the
persisted initiators that satisfy the matcher, in the order of the store. -/
def Store.Find (st : Store) (m : Matcher) (sink : List Initiator) :
    List Initiator × Option GoError :=
  match st.findError m with
  | some err => (sink, some err)
  | none => (st.initiators.filter (fun i => m.Match i), none)

/-- Modelled from the spec: `Job.InitiatorsFor(t)` of the models package, whose
code is not in the listener's file: the initiators of the job whose type is
`t`, in the order of the job. -/
def Job.InitiatorsFor (job : Job) (t : String) : List Initiator :=
  job.Initiators.filter (fun i => decide (i.Type_ = t))

/-- A value given to the logger next to a key. -/
inductive LogValue where
  | str (s : String)
  | num (n : Nat)
  | notification (l : EthNotification)
  deriving DecidableEq, Repr

/-- A call that leaves the listener: a line of `logger.Errorw`, a query of the
store, a job lookup, a trigger of the run engine, a subscription. -/
inductive Event where
  | Errorw (msg : String) (keysAndValues : List (String × LogValue))
  | Find (m : Matcher)
  | FindJob (id : String)
  | BeginRun (job : Job)
  | Subscribe (logs : Option Nat) (address : String)
  deriving DecidableEq, Repr

/-- The jobs handed to the run engine, in the order of the trace. -/
def triggers : List Event → List Job
  | [] => []
  | .BeginRun job :: es => job :: triggers es
  | _ :: es => triggers es

/-- The error lines written to the logger, in the order of the trace. -/
def reported : List Event → List Event
  | [] => []
  | .Errorw msg kv :: es => .Errorw msg kv :: reported es
  | _ :: es => reported es

/-- The queries made of the store, in the order of the trace. -/
def lookups : List Event → List Matcher
  | [] => []
  | .Find m :: es => m :: lookups es
  | _ :: es => lookups es

/-- The subscriptions asked of the transaction manager, in the order of the
trace. -/
def subscriptions : List Event → List (Option Nat × String)
  | [] => []
  | .Subscribe logs address :: es => (logs, address) :: subscriptions es
  | _ :: es => subscriptions es

/-! ## The listener -/

/-- `NotificationListener`: the store and the field `logs`, which is nil
(`none`) or refers to a channel. -/
structure NotificationListener where
  Store : Store
  logs : Option Nat

/-- What the listener changes outside its own fields: the channels made so
far (the next `make` yields channel `made`), those that have been closed, the
channels over which a dispatcher task has been launched, and the trace. -/
structure Runtime where
  made : Nat
  closed : List Nat
  dispatchers : List Nat
  events : List Event
  deriving DecidableEq, Repr

/-- The runtime of a process that has done nothing yet. -/
def Runtime.initial : Runtime := ⟨0, [], [], []⟩

/-- The built-in `close(ch)`: closing a closed channel panics. -/
def close (rt : Runtime) (ch : Nat) : Outcome Runtime :=
  if ch ∈ rt.closed then .runtimePanic "close of closed channel"
  else .returned { rt with closed := ch :: rt.closed }

/-- The loop of `AddJob` over the initiators it was given: subscribe each
address on the channel `logs`, return at the first error. -/
def subscribeEach (nl : NotificationListener) : List Initiator → List Event × Option GoError
  | [] => ([], none)
  | initr :: rest =>
    let address := initr.Address.String
    match nl.Store.TxManager.Subscribe nl.logs address with
    | some err => ([Event.Subscribe nl.logs address], some err)
    | none =>
      let r := subscribeEach nl rest
      (Event.Subscribe nl.logs address :: r.1, r.2)

/-- `AddJob`: the calls it makes and the error it returns. -/
def AddJob (nl : NotificationListener) (job : Job) : List Event × Option GoError :=
  subscribeEach nl (job.InitiatorsFor InitiatorEthLog)

/-- The loop of `Start` over the loaded jobs: `nl.AddJob(j)` for each, the
value it returns being dropped. -/
def addEach (nl : NotificationListener) : List Job → List Event
  | [] => []
  | j :: rest => (AddJob nl j).1 ++ addEach nl rest

/-- `Start`: load the jobs, make the channel, launch the dispatcher, add each
job. Returns the listener, the runtime and the error. -/
def Start (nl : NotificationListener) (rt : Runtime) :
    NotificationListener × Runtime × Option GoError :=
  match nl.Store.Jobs with
  | .error err => (nl, rt, some err)
  | .ok jobs =>
    let ch := rt.made
    let nl1 : NotificationListener := { nl with logs := some ch }
    let rt1 : Runtime := { rt with made := rt.made + 1, dispatchers := rt.dispatchers ++ [ch] }
    (nl1, { rt1 with events := rt1.events ++ addEach nl1 jobs }, none)

/-- `Stop`: close the channel when the field `logs` is not nil. -/
def Stop (nl : NotificationListener) (rt : Runtime) : Outcome (Runtime × Option GoError) :=
  match nl.logs with
  | some ch =>
    match close rt ch with
    | .runtimePanic msg => .runtimePanic msg
    | .returned rt1 => .returned (rt1, none)
  | none => .returned (rt, none)

/-- `initrsWithLogAndAddress`: query the store for the initiators of the
address whose type matches `InitiatorEthLog`; an error of the query is logged
and the sink is returned as the query left it. -/
def initrsWithLogAndAddress (st : Store) (address : Address) : List Initiator × List Event :=
  let initrs : List Initiator := []
  let query := Matcher.And (Matcher.Eq "Address" (.address address))
    (Matcher.Re "Type" InitiatorEthLog)
  match st.Find query initrs with
  | (initrs, some err) =>
    (initrs, [Event.Find query,
      Event.Errorw ("Initiating job from log: " ++ err) [("address", .str address.String)]])
  | (initrs, none) => (initrs, [Event.Find query])

/-- The inner loop of `listenToLogs`: look up the job of each initiator; log
the error of a failed lookup, begin a run of a job that was found. -/
def runEach (st : Store) : List Initiator → List Event
  | [] => []
  | initr :: rest =>
    (match st.FindJob initr.JobID with
      | .error err =>
        [Event.FindJob initr.JobID,
          Event.Errorw ("Initiating job from log: " ++ err)
            [("job", .str initr.JobID), ("initiator", .num initr.ID)]]
      | .ok job => [Event.FindJob initr.JobID, Event.BeginRun job]) ++ runEach st rest

/-- `listenToLogs` on the notifications received before the channel is closed.
`UnmarshalLog` is the method of the notification, which is not in the
listener's file. -/
def listenToLogs (UnmarshalLog : EthNotification → Except GoError EventLog) (st : Store) :
    List EthNotification → List Event
  | [] => []
  | l :: rest =>
    (match UnmarshalLog l with
      | .error _ => [Event.Errorw "Unable to unmarshal log" [("log", .notification l)]]
      | .ok el =>
        let r := initrsWithLogAndAddress st el.Address
        r.2 ++ runEach st r.1) ++ listenToLogs UnmarshalLog st rest

/-! ## Concrete values used to run the definitions -/

/-- The bytes of the JSON document with the one member `a` of value 1. -/
def docA1 : List Byte := [123, 34, 97, 34, 58, 49, 125]

/-- A codec to run the decoder with: an output lists its members, and the one
document the codec reads is `docA1`. -/
def sampleJSON : JSON (List (String × Nat)) where
  zero := []
  composite := []
  Marshal := fun el => .ok el.Data
  Unmarshal := fun b out =>
    if b = docA1 then ([("a", 1)], none) else (out, some "invalid character")

/-- An initiator of the kind whose payload embeds a JSON document. -/
def sampleChainlinkLog : Initiator := ⟨1, "job-1", InitiatorChainlinkLog, ⟨"0xaa"⟩⟩

/-- An initiator that is started by the clock, not by a log. -/
def sampleCron : Initiator := ⟨3, "job-1", "cron", ⟨"0xaa"⟩⟩

/-- A log with a payload of three bytes. -/
def shortLog : EventLog := ⟨⟨"0xaa"⟩, [], [1, 2, 3]⟩

/-- A log whose payload is 64 null bytes, `docA1` and 25 null bytes, which
fill the third word of 32 bytes. -/
def paddedLog : EventLog := ⟨⟨"0xaa"⟩, [], List.replicate 64 0 ++ docA1 ++ List.replicate 25 0⟩

/-- The matcher that `initrsWithLogAndAddress` builds for an address. -/
def logQuery (address : Address) : Matcher :=
  Matcher.And (Matcher.Eq "Address" (.address address)) (Matcher.Re "Type" InitiatorEthLog)

/-- The line that `initrsWithLogAndAddress` logs when the query fails. -/
def queryFailure (address : Address) (err : GoError) : Event :=
  Event.Errorw ("Initiating job from log: " ++ err) [("address", .str address.String)]

/-- The line the dispatcher logs for a notification that does not unmarshal. -/
def unmarshalFailure (l : EthNotification) : Event :=
  Event.Errorw "Unable to unmarshal log" [("log", .notification l)]

/-- The job a lookup of the watcher's job finds, when it finds one. -/
def foundJob (st : Store) (w : Initiator) : Option Job :=
  match st.FindJob w.JobID with
  | .ok job => some job
  | .error _ => none

/-- The line the dispatcher logs for a watcher whose job lookup fails. -/
def lookupFailure (st : Store) (w : Initiator) : Option Event :=
  match st.FindJob w.JobID with
  | .ok _ => none
  | .error err =>
    some (Event.Errorw ("Initiating job from log: " ++ err)
      [("job", .str w.JobID), ("initiator", .num w.ID)])

/-- A transaction manager that refuses the address `0xbad`. -/
def sampleTx : TxManager :=
  ⟨fun _ address => if address = "0xbad" then some "subscription refused" else none⟩

/-- A job with three log initiators, the second of which the transaction
manager refuses, and one initiator of another kind. -/
def jobA : Job :=
  ⟨"job-a", [⟨1, "job-a", InitiatorEthLog, ⟨"0xaa"⟩⟩, ⟨2, "job-a", "cron", ⟨"0x00"⟩⟩,
    ⟨3, "job-a", InitiatorEthLog, ⟨"0xbad"⟩⟩, ⟨4, "job-a", InitiatorEthLog, ⟨"0xcc"⟩⟩]⟩

/-- A job with one log initiator. -/
def jobB : Job := ⟨"job-b", [⟨5, "job-b", InitiatorEthLog, ⟨"0xaa"⟩⟩]⟩

/-- A store that holds `jobA` and `jobB`, an initiator of a job that is gone,
and an initiator whose type only contains the text of `InitiatorEthLog`. -/
def sampleStore : Store where
  Jobs := .ok [jobA, jobB]
  FindJob := fun id =>
    if id = "job-a" then .ok jobA else if id = "job-b" then .ok jobB else .error "not found"
  initiators := jobA.Initiators ++ [⟨6, "job-gone", InitiatorEthLog, ⟨"0xaa"⟩⟩]
    ++ jobB.Initiators ++ [⟨7, "job-b", "ethlogs", ⟨"0xee"⟩⟩,
      ⟨8, "job-b", InitiatorChainlinkLog, ⟨"0xaa"⟩⟩]
  findError := fun _ => none
  TxManager := sampleTx

/-- The same store when it cannot be reached: neither the jobs nor a query. -/
def downStore : Store :=
  { sampleStore with Jobs := .error "store unavailable",
                     findError := fun _ => some "store unavailable" }

/-- A notification reads as a log of the address `0xaa` when it starts with the
byte 1, as a log of the address `0xee` when it starts with the byte 2, and
does not read as a log otherwise. -/
def sampleUnmarshalLog (l : EthNotification) : Except GoError EventLog :=
  match l.Params with
  | 1 :: data => .ok ⟨⟨"0xaa"⟩, [], data⟩
  | 2 :: data => .ok ⟨⟨"0xee"⟩, [], data⟩
  | _ => .error "unexpected end of JSON input"

/-- The stored watchers of an address whose kind is `InitiatorEthLog`, in the
order of the store. -/
def rawLogWatchers (st : Store) (address : Address) : List Initiator :=
  st.initiators.filter (fun i => decide (i.Address = address ∧ i.Type_ = InitiatorEthLog))

/-- The sample store without the initiator whose type only contains the text
of `InitiatorEthLog`: every stored type that holds the text is that type. -/
def cleanStore : Store :=
  { sampleStore with
    initiators := jobA.Initiators ++ [⟨6, "job-gone", InitiatorEthLog, ⟨"0xaa"⟩⟩]
      ++ jobB.Initiators ++ [⟨8, "job-b", InitiatorChainlinkLog, ⟨"0xaa"⟩⟩] }

/-- The clean store behind a query engine that answers a query without a
matching record with the error `not found`. -/
def emptyResultStore : Store :=
  { cleanStore with
    findError := fun m =>
      if (cleanStore.initiators.filter (fun i => m.Match i)).isEmpty then some "not found"
      else none }

/-! ## Lemmas on the byte operations -/

theorem sliceFrom_of_le (b : List Byte) (lo : Nat) (h : lo ≤ b.length) :
    sliceFrom b lo = .returned (b.drop lo) := by
  simp [sliceFrom, h]

theorem sliceFrom_of_lt (b : List Byte) (lo : Nat) (h : b.length < lo) :
    sliceFrom b lo = .runtimePanic "slice bounds out of range" := by
  simp [sliceFrom, Nat.not_le.mpr h]

theorem takeWhile_eq_replicate (c : Byte) (r : List Byte) :
    r.takeWhile (fun b => b == c) = List.replicate (r.takeWhile (fun b => b == c)).length c := by
  induction r with
  | nil => simp
  | cons x xs ih =>
    by_cases hx : x = c
    · subst hx
      simp only [List.takeWhile_cons, beq_self_eq_true, if_true, List.length_cons,
        List.replicate_succ]
      rw [← ih]
    · have : (x == c) = false := by simpa using hx
      simp [List.takeWhile_cons, this]

theorem head_dropWhile_ne (c : Byte) (r : List Byte) :
    (r.dropWhile (fun b => b == c)).head? ≠ some c := by
  induction r with
  | nil => simp
  | cons x xs ih =>
    by_cases hx : x = c
    · subst hx
      simpa [List.dropWhile_cons] using ih
    · have : (x == c) = false := by simpa using hx
      simp [List.dropWhile_cons, this, hx]

theorem drop_header (header body : List Byte) (h : header.length = 64) :
    List.drop 64 (header ++ body) = body := by
  rw [← h]
  exact List.drop_left header body

/-- What `TrimRight` returns is the input without a trailing run of `c`, and
does not itself end in `c`. -/
theorem TrimRight_spec (s : List Byte) (c : Byte) :
    ∃ k, s = TrimRight s c ++ List.replicate k c ∧ (TrimRight s c).getLast? ≠ some c := by
  refine ⟨(s.reverse.takeWhile (fun b => b == c)).length, ?_, ?_⟩
  · have h := List.takeWhile_append_dropWhile (fun b => b == c) s.reverse
    have h2 : s = (s.reverse.dropWhile (fun b => b == c)).reverse
        ++ (s.reverse.takeWhile (fun b => b == c)).reverse := by
      rw [← List.reverse_append, h, List.reverse_reverse]
    rw [takeWhile_eq_replicate c s.reverse, List.reverse_replicate] at h2
    simpa [TrimRight] using h2
  · simp only [TrimRight, List.getLast?_reverse]
    exact head_dropWhile_ne c s.reverse

/-! ## The output decoder -/

/-- C1, as the code behaves: for an initiator of the kind `InitiatorChainlinkLog`
and a payload of fewer than 64 bytes, `FormatLogOutput` does not return at
all, neither an error nor an output: the slice of the payload panics. -/
theorem FormatLogOutput_short_payload_panics {Output : Type} (json : JSON Output)
    (initr : Initiator) (el : EventLog) (hkind : initr.Type_ = InitiatorChainlinkLog)
    (hshort : el.Data.length < 64) :
    FormatLogOutput json initr el = .runtimePanic "slice bounds out of range"
      ∧ ∀ r, FormatLogOutput json initr el ≠ .returned r := by
  have hne : ¬ InitiatorChainlinkLog = InitiatorEthLog := by decide
  have h : FormatLogOutput json initr el = .runtimePanic "slice bounds out of range" := by
    simp only [FormatLogOutput, hkind, hne, if_false, if_true, parseEventLogJSON,
      sliceFrom_of_lt el.Data 64 hshort]
  refine ⟨h, ?_⟩
  intro r hr
  rw [h] at hr
  cases hr

theorem FormatLogOutput_short_payload_panics_witness :
    FormatLogOutput sampleJSON sampleChainlinkLog shortLog
        = .runtimePanic "slice bounds out of range"
      ∧ ∀ r, FormatLogOutput sampleJSON sampleChainlinkLog shortLog ≠ .returned r :=
  FormatLogOutput_short_payload_panics sampleJSON sampleChainlinkLog shortLog rfl (by decide)

/-- C4: for an initiator whose type is neither `InitiatorEthLog` nor
`InitiatorChainlinkLog`, `FormatLogOutput` returns the empty output together
with the error "no supported initiator type was found", whatever the log. -/
theorem FormatLogOutput_unsupported_kind {Output : Type} (json : JSON Output)
    (initr : Initiator) (el : EventLog) (h1 : initr.Type_ ≠ InitiatorEthLog)
    (h2 : initr.Type_ ≠ InitiatorChainlinkLog) :
    FormatLogOutput json initr el
      = .returned (json.composite, some "no supported initiator type was found") := by
  simp [FormatLogOutput, h1, h2]

theorem FormatLogOutput_unsupported_kind_witness :
    FormatLogOutput sampleJSON sampleCron paddedLog
      = .returned (([] : List (String × Nat)), some "no supported initiator type was found") :=
  FormatLogOutput_unsupported_kind sampleJSON sampleCron paddedLog (by decide) (by decide)

/-- C5: for an initiator of the kind `InitiatorChainlinkLog` and a payload of
at least 64 bytes, `FormatLogOutput` returns what `Unmarshal` makes of the
bytes after the first 64 with the trailing null bytes cut off: the output and
the error of that call. What is cut off is exactly a trailing run of null
bytes. The first 64 bytes do not matter. 64 null bytes, the document `docA1`
and null bytes up to the end of the word give what `Unmarshal` makes of
`docA1`. -/
theorem FormatLogOutput_chainlinklog {Output : Type} (json : JSON Output)
    (initr : Initiator) (hkind : initr.Type_ = InitiatorChainlinkLog) :
    (∀ el : EventLog, 64 ≤ el.Data.length →
        FormatLogOutput json initr el
          = .returned (json.Unmarshal (TrimRight (el.Data.drop 64) 0) json.zero))
      ∧ (∀ s : List Byte, ∃ k, s = TrimRight s 0 ++ List.replicate k 0
          ∧ (TrimRight s 0).getLast? ≠ some 0)
      ∧ (∀ (el : EventLog) (header header2 body : List Byte),
          header.length = 64 → header2.length = 64 →
          FormatLogOutput json initr { el with Data := header ++ body }
            = FormatLogOutput json initr { el with Data := header2 ++ body })
      ∧ (∀ el : EventLog,
          FormatLogOutput json initr
              { el with Data := List.replicate 64 0 ++ docA1 ++ List.replicate 25 0 }
            = .returned (json.Unmarshal docA1 json.zero)) := by
  have hne : ¬ InitiatorChainlinkLog = InitiatorEthLog := by decide
  have main : ∀ el : EventLog, 64 ≤ el.Data.length →
      FormatLogOutput json initr el
        = .returned (json.Unmarshal (TrimRight (el.Data.drop 64) 0) json.zero) := by
    intro el hlen
    simp only [FormatLogOutput, hkind, hne, if_false, if_true, parseEventLogJSON,
      sliceFrom_of_le el.Data 64 hlen]
  refine ⟨main, fun s => TrimRight_spec s 0, ?_, ?_⟩
  · intro el header header2 body hh hh2
    rw [main _ (by simp [hh]), main _ (by simp [hh2])]
    simp only [drop_header header body hh, drop_header header2 body hh2]
  · intro el
    rw [main _ (by simp [docA1])]
    have : TrimRight (List.drop 64 (List.replicate 64 (0 : Byte) ++ docA1
        ++ List.replicate 25 0)) 0 = docA1 := by decide
    simp only [this]

theorem FormatLogOutput_chainlinklog_witness :
    FormatLogOutput sampleJSON sampleChainlinkLog paddedLog = .returned ([("a", 1)], none) := by
  have h := (FormatLogOutput_chainlinklog sampleJSON sampleChainlinkLog rfl).2.2.2 paddedLog
  simpa [paddedLog, sampleJSON] using h

/-! ## The registrar -/

theorem subscribeEach_all_ok (nl : NotificationListener) (ws : List Initiator)
    (h : ∀ i ∈ ws, nl.Store.TxManager.Subscribe nl.logs i.Address.String = none) :
    subscribeEach nl ws
      = (ws.map (fun i => Event.Subscribe nl.logs i.Address.String), none) := by
  induction ws with
  | nil => rfl
  | cons w rest ih =>
    have hw := h w (List.mem_cons_self w rest)
    have hrest := ih (fun i hi => h i (List.mem_cons_of_mem w hi))
    simp only [subscribeEach, hw, hrest, List.map_cons]

theorem subscribeEach_first_error (nl : NotificationListener) (pre : List Initiator)
    (i : Initiator) (post : List Initiator) (err : GoError)
    (hpre : ∀ p ∈ pre, nl.Store.TxManager.Subscribe nl.logs p.Address.String = none)
    (hi : nl.Store.TxManager.Subscribe nl.logs i.Address.String = some err) :
    subscribeEach nl (pre ++ i :: post)
      = ((pre ++ [i]).map (fun i => Event.Subscribe nl.logs i.Address.String), some err) := by
  induction pre with
  | nil => simp only [List.nil_append, subscribeEach, hi, List.map_cons, List.map_nil]
  | cons w rest ih =>
    have hw := hpre w (List.mem_cons_self w rest)
    have hrest := ih (fun p hp => hpre p (List.mem_cons_of_mem w hp))
    simp only [List.cons_append, subscribeEach, hw, List.append_eq, hrest, List.map_cons]

/-- C6: `AddJob` calls `Subscribe` on the channel `logs` for the initiators of
the job whose type is `InitiatorEthLog`, in the order of the job, each with
its address, and for no other initiator. When every call succeeds it makes
all of them and returns nil. When a call fails after the calls before it
succeeded, it returns the error of that call, and the calls made are those
up to and including it: none after it, and nothing else (the trace holds no
call that undoes a subscription). -/
theorem AddJob_subscribes (nl : NotificationListener) (job : Job) :
    ((∀ i ∈ job.Initiators.filter (fun i => decide (i.Type_ = InitiatorEthLog)),
          nl.Store.TxManager.Subscribe nl.logs i.Address.String = none) →
        AddJob nl job
          = ((job.Initiators.filter (fun i => decide (i.Type_ = InitiatorEthLog))).map
              (fun i => Event.Subscribe nl.logs i.Address.String), none))
      ∧ (∀ (pre : List Initiator) (i : Initiator) (post : List Initiator) (err : GoError),
          job.Initiators.filter (fun i => decide (i.Type_ = InitiatorEthLog))
            = pre ++ i :: post →
          (∀ p ∈ pre, nl.Store.TxManager.Subscribe nl.logs p.Address.String = none) →
          nl.Store.TxManager.Subscribe nl.logs i.Address.String = some err →
          AddJob nl job
            = ((pre ++ [i]).map (fun i => Event.Subscribe nl.logs i.Address.String),
                some err)) := by
  refine ⟨fun h => ?_, fun pre i post err hsplit hpre hi => ?_⟩
  · exact subscribeEach_all_ok nl _ h
  · show subscribeEach nl (job.InitiatorsFor InitiatorEthLog) = _
    rw [show job.InitiatorsFor InitiatorEthLog = pre ++ i :: post from hsplit]
    exact subscribeEach_first_error nl pre i post err hpre hi

theorem AddJob_subscribes_witness :
    AddJob ⟨sampleStore, some 0⟩ jobB = ([Event.Subscribe (some 0) "0xaa"], none)
      ∧ AddJob ⟨sampleStore, some 0⟩ jobA
        = ([Event.Subscribe (some 0) "0xaa", Event.Subscribe (some 0) "0xbad"],
            some "subscription refused") :=
  ⟨(AddJob_subscribes ⟨sampleStore, some 0⟩ jobB).1 (by decide),
    (AddJob_subscribes ⟨sampleStore, some 0⟩ jobA).2
      [⟨1, "job-a", InitiatorEthLog, ⟨"0xaa"⟩⟩] ⟨3, "job-a", InitiatorEthLog, ⟨"0xbad"⟩⟩
      [⟨4, "job-a", InitiatorEthLog, ⟨"0xcc"⟩⟩] "subscription refused"
      (by decide) (by decide) (by decide)⟩

/-! ## The lifecycle -/

theorem addEach_append (nl : NotificationListener) (a b : List Job) :
    addEach nl (a ++ b) = addEach nl a ++ addEach nl b := by
  induction a with
  | nil => rfl
  | cons j rest ih =>
    simp only [List.cons_append, addEach, List.append_eq, ih, List.append_assoc]

/-- C9: when loading the jobs fails, `Start` returns that error and does
nothing else: the listener, its field `logs` included, and the runtime are as
they were, so no channel is made, no dispatcher is launched and `Subscribe`
is not called. -/
theorem Start_jobs_error (nl : NotificationListener) (rt : Runtime) (err : GoError)
    (h : nl.Store.Jobs = .error err) :
    Start nl rt = (nl, rt, some err)
      ∧ (Start nl rt).1.logs = nl.logs
      ∧ (Start nl rt).2.1.made = rt.made
      ∧ (Start nl rt).2.1.dispatchers = rt.dispatchers
      ∧ subscriptions (Start nl rt).2.1.events = subscriptions rt.events := by
  have hs : Start nl rt = (nl, rt, some err) := by
    simp only [Start, h]
  rw [hs]
  exact ⟨rfl, rfl, rfl, rfl, rfl⟩

theorem Start_jobs_error_witness :
    Start ⟨downStore, none⟩ Runtime.initial
        = (⟨downStore, none⟩, Runtime.initial, some "store unavailable")
      ∧ (Start ⟨downStore, none⟩ Runtime.initial).1.logs = none
      ∧ (Start ⟨downStore, none⟩ Runtime.initial).2.1.made = 0
      ∧ (Start ⟨downStore, none⟩ Runtime.initial).2.1.dispatchers = []
      ∧ subscriptions (Start ⟨downStore, none⟩ Runtime.initial).2.1.events = [] :=
  Start_jobs_error ⟨downStore, none⟩ Runtime.initial "store unavailable" rfl

/-- C3, as the code behaves: the jobs load, `AddJob` returns an error for
`jobA` on the channel that `Start` makes, and `Start` returns nil all the
same: the value `AddJob` returns is dropped. -/
theorem Start_drops_registration_error :
    (AddJob ⟨sampleStore, some 0⟩ jobA).2 = some "subscription refused"
      ∧ sampleStore.Jobs = .ok [jobA, jobB]
      ∧ (Start ⟨sampleStore, none⟩ Runtime.initial).1.logs = some 0
      ∧ (Start ⟨sampleStore, none⟩ Runtime.initial).2.2 = none :=
  ⟨by decide, rfl, by decide, by decide⟩

/-- Once the jobs are loaded `Start` returns nil, whether or not `AddJob`
fails for some of them. The calls of every job are made, job after job: those
made before a failing job stay, and the jobs after it are added as well. -/
theorem Start_returns_nil (nl : NotificationListener) (rt : Runtime) (jobs : List Job)
    (h : nl.Store.Jobs = .ok jobs) :
    (Start nl rt).2.2 = none
      ∧ (Start nl rt).1.logs = some rt.made
      ∧ ∀ (pre : List Job) (j : Job) (post : List Job), jobs = pre ++ j :: post →
          (Start nl rt).2.1.events
            = rt.events ++ addEach { nl with logs := some rt.made } pre
              ++ (AddJob { nl with logs := some rt.made } j).1
              ++ addEach { nl with logs := some rt.made } post := by
  refine ⟨by simp only [Start, h], by simp only [Start, h], ?_⟩
  intro pre j post hsplit
  simp only [Start, h, hsplit, addEach_append, addEach, List.append_assoc]

theorem Start_returns_nil_witness :
    (Start ⟨sampleStore, none⟩ Runtime.initial).2.1.events
      = [] ++ addEach ⟨sampleStore, some 0⟩ []
        ++ (AddJob ⟨sampleStore, some 0⟩ jobA).1
        ++ addEach ⟨sampleStore, some 0⟩ [jobB] :=
  (Start_returns_nil ⟨sampleStore, none⟩ Runtime.initial [jobA, jobB] rfl).2.2
    [] jobA [jobB] rfl

/-- C2, as the code behaves: `Stop` on a listener that was never started
returns nil and changes nothing, and the first `Stop` after a `Start` returns
nil; the second `Stop` after that finds `logs` still set, closes the closed
channel again and panics. -/
theorem Stop_twice_panics (st : Store) (jobs : List Job) :
    (∀ rt : Runtime, Stop ⟨{ st with Jobs := .ok jobs }, none⟩ rt = .returned (rt, none))
      ∧ (Start ⟨{ st with Jobs := .ok jobs }, none⟩ Runtime.initial).2.2 = none
      ∧ ∃ rt1 : Runtime,
          Stop (Start ⟨{ st with Jobs := .ok jobs }, none⟩ Runtime.initial).1
              (Start ⟨{ st with Jobs := .ok jobs }, none⟩ Runtime.initial).2.1
            = .returned (rt1, none)
          ∧ Stop (Start ⟨{ st with Jobs := .ok jobs }, none⟩ Runtime.initial).1 rt1
            = .runtimePanic "close of closed channel" := by
  refine ⟨fun rt => rfl, rfl, ?_⟩
  refine ⟨{ (Start ⟨{ st with Jobs := .ok jobs }, none⟩ Runtime.initial).2.1 with
    closed := [0] }, ?_, ?_⟩
  · simp [Start, Stop, close, Runtime.initial]
  · simp [Start, Stop, close, Runtime.initial]

/-! ## The dispatcher -/

theorem triggers_append (a b : List Event) : triggers (a ++ b) = triggers a ++ triggers b := by
  induction a with
  | nil => rfl
  | cons e es ih => cases e <;> simp [triggers, ih]

theorem reported_append (a b : List Event) : reported (a ++ b) = reported a ++ reported b := by
  induction a with
  | nil => rfl
  | cons e es ih => cases e <;> simp [reported, ih]

theorem listenToLogs_append (U : EthNotification → Except GoError EventLog) (st : Store)
    (a b : List EthNotification) :
    listenToLogs U st (a ++ b) = listenToLogs U st a ++ listenToLogs U st b := by
  induction a with
  | nil => rfl
  | cons l rest ih =>
    simp only [List.cons_append, listenToLogs, List.append_eq, ih, List.append_assoc]

theorem listenToLogs_malformed (U : EthNotification → Except GoError EventLog) (st : Store)
    (l : EthNotification) (err : GoError) (hU : U l = .error err) :
    listenToLogs U st [l] = [unmarshalFailure l] := by
  simp only [listenToLogs, hU, unmarshalFailure, List.append_nil]

theorem triggers_runEach (st : Store) (ws : List Initiator) :
    triggers (runEach st ws) = ws.filterMap (foundJob st) := by
  induction ws with
  | nil => rfl
  | cons w rest ih =>
    cases hf : st.FindJob w.JobID <;>
      simp [runEach, hf, triggers, triggers_append, ih, foundJob, List.filterMap_cons]

theorem reported_runEach (st : Store) (ws : List Initiator) :
    reported (runEach st ws) = ws.filterMap (lookupFailure st) := by
  induction ws with
  | nil => rfl
  | cons w rest ih =>
    cases hf : st.FindJob w.JobID <;>
      simp [runEach, hf, reported, reported_append, ih, lookupFailure, List.filterMap_cons]

theorem found_add_failed (st : Store) (ws : List Initiator) :
    (ws.filterMap (foundJob st)).length + (ws.filterMap (lookupFailure st)).length
      = ws.length := by
  induction ws with
  | nil => rfl
  | cons w rest ih =>
    cases hf : st.FindJob w.JobID <;>
      simp [foundJob, lookupFailure, hf, List.filterMap_cons] <;> omega

theorem initrsWithLogAndAddress_ok (st : Store) (address : Address)
    (hq : st.findError (logQuery address) = none) :
    initrsWithLogAndAddress st address
      = (st.initiators.filter (fun i => (logQuery address).Match i),
          [Event.Find (logQuery address)]) := by
  have hq2 : st.findError (Matcher.And (Matcher.Eq "Address" (.address address))
      (Matcher.Re "Type" InitiatorEthLog)) = none := hq
  simp only [initrsWithLogAndAddress, Store.Find, hq2, logQuery]

theorem initrsWithLogAndAddress_error (st : Store) (address : Address) (err : GoError)
    (hq : st.findError (logQuery address) = some err) :
    initrsWithLogAndAddress st address
      = ([], [Event.Find (logQuery address), queryFailure address err]) := by
  have hq2 : st.findError (Matcher.And (Matcher.Eq "Address" (.address address))
      (Matcher.Re "Type" InitiatorEthLog)) = some err := hq
  simp only [initrsWithLogAndAddress, Store.Find, hq2, logQuery, queryFailure]

theorem Match_logQuery (address : Address) (i : Initiator) :
    (logQuery address).Match i
      = (decide (i.Address = address) && MatchString InitiatorEthLog i.Type_) := by
  have h1 : i.field "Address" = some (.address i.Address) := rfl
  have h2 : i.field "Type" = some (.string i.Type_) := rfl
  simp only [logQuery, Matcher.Match, h1, h2, Option.some.injEq, FieldValue.address.injEq]

/-- For a notification that unmarshals to a log and a query that succeeds, the
dispatcher hands to the run engine the job of each watcher the lookup
returned whose job lookup succeeds, once each and in that order, and logs one
line for each returned watcher whose job lookup fails, and nothing else. -/
theorem listenToLogs_returned_watchers (U : EthNotification → Except GoError EventLog)
    (st : Store) (l : EthNotification) (el : EventLog) (hU : U l = .ok el)
    (hq : st.findError (logQuery el.Address) = none) :
    triggers (listenToLogs U st [l])
        = (initrsWithLogAndAddress st el.Address).1.filterMap (foundJob st)
      ∧ reported (listenToLogs U st [l])
        = (initrsWithLogAndAddress st el.Address).1.filterMap (lookupFailure st)
      ∧ (triggers (listenToLogs U st [l])).length + (reported (listenToLogs U st [l])).length
        = (initrsWithLogAndAddress st el.Address).1.length
      ∧ ((∀ w ∈ (initrsWithLogAndAddress st el.Address).1, ∃ job, st.FindJob w.JobID = .ok job) →
          (triggers (listenToLogs U st [l])).length
            = (initrsWithLogAndAddress st el.Address).1.length)
      ∧ ((reported (listenToLogs U st [l])).length = 1 →
          (triggers (listenToLogs U st [l])).length
            = (initrsWithLogAndAddress st el.Address).1.length - 1)
      ∧ (∀ (pre : List Initiator) (w : Initiator) (post : List Initiator) (err : GoError),
          (initrsWithLogAndAddress st el.Address).1 = pre ++ w :: post →
          st.FindJob w.JobID = .error err →
          triggers (listenToLogs U st [l])
            = pre.filterMap (foundJob st) ++ post.filterMap (foundJob st))
      ∧ ((initrsWithLogAndAddress st el.Address).1 = [] →
          triggers (listenToLogs U st [l]) = [] ∧ reported (listenToLogs U st [l]) = []) := by
  have hev : listenToLogs U st [l]
      = Event.Find (logQuery el.Address)
        :: runEach st (initrsWithLogAndAddress st el.Address).1 := by
    simp only [listenToLogs, hU, initrsWithLogAndAddress_ok st el.Address hq,
      List.append_nil, List.singleton_append]
  have ht : triggers (listenToLogs U st [l])
      = (initrsWithLogAndAddress st el.Address).1.filterMap (foundJob st) := by
    rw [hev]
    simp only [triggers]
    exact triggers_runEach st _
  have hr : reported (listenToLogs U st [l])
      = (initrsWithLogAndAddress st el.Address).1.filterMap (lookupFailure st) := by
    rw [hev]
    simp only [reported]
    exact reported_runEach st _
  have hsum := found_add_failed st (initrsWithLogAndAddress st el.Address).1
  refine ⟨ht, hr, ?_, ?_, ?_, ?_, ?_⟩
  · rw [ht, hr]; exact hsum
  · intro hall
    rw [ht]
    have hnone : (initrsWithLogAndAddress st el.Address).1.filterMap (lookupFailure st) = [] := by
      rw [List.filterMap_eq_nil_iff]
      intro w hw
      obtain ⟨job, hjob⟩ := hall w hw
      simp only [lookupFailure, hjob]
    rw [hnone] at hsum
    simpa using hsum
  · intro hone
    rw [hr] at hone
    rw [ht]
    omega
  · intro pre w post err hsplit hfail
    rw [ht, hsplit]
    have hw : foundJob st w = none := by simp only [foundJob, hfail]
    simp [List.filterMap_append, List.filterMap_cons, hw]
  · intro hnil
    rw [ht, hr, hnil]
    exact ⟨rfl, rfl⟩

theorem listenToLogs_returned_watchers_witness :
    triggers (listenToLogs sampleUnmarshalLog sampleStore [⟨[1]⟩]) = [jobA, jobB]
      ∧ (reported (listenToLogs sampleUnmarshalLog sampleStore [⟨[1]⟩])).length = 1 :=
  have h := listenToLogs_returned_watchers sampleUnmarshalLog sampleStore ⟨[1]⟩
    ⟨⟨"0xaa"⟩, [], []⟩ rfl rfl
  ⟨h.1.trans (by decide), (congrArg List.length h.2.1).trans (by decide)⟩

/-- C8: the dispatcher handles the notifications one after the other, in
order. For a notification that does not unmarshal it logs one line and does
nothing else, neither a lookup nor a trigger; what it does for the
notifications before and after it is what it does for them when the
malformed notification is not in the sequence. -/
theorem listenToLogs_skips_malformed (U : EthNotification → Except GoError EventLog)
    (st : Store) (pre : List EthNotification) (l : EthNotification)
    (post : List EthNotification) (err : GoError) (hU : U l = .error err) :
    listenToLogs U st (pre ++ l :: post)
        = listenToLogs U st pre ++ unmarshalFailure l :: listenToLogs U st post
      ∧ listenToLogs U st (pre ++ post) = listenToLogs U st pre ++ listenToLogs U st post
      ∧ listenToLogs U st [l] = [unmarshalFailure l]
      ∧ reported (listenToLogs U st [l]) = [unmarshalFailure l]
      ∧ lookups (listenToLogs U st [l]) = []
      ∧ triggers (listenToLogs U st [l]) = [] := by
  have h1 := listenToLogs_malformed U st l err hU
  refine ⟨?_, listenToLogs_append U st pre post, h1, ?_, ?_, ?_⟩
  · have hsplit : pre ++ l :: post = pre ++ ([l] ++ post) := rfl
    rw [hsplit, listenToLogs_append, listenToLogs_append, h1]
    rfl
  · rw [h1]; rfl
  · rw [h1]; rfl
  · rw [h1]; rfl

theorem listenToLogs_skips_malformed_witness :
    listenToLogs sampleUnmarshalLog sampleStore ([⟨[1]⟩] ++ ⟨[0]⟩ :: [⟨[2]⟩])
        = listenToLogs sampleUnmarshalLog sampleStore [⟨[1]⟩]
          ++ unmarshalFailure ⟨[0]⟩ :: listenToLogs sampleUnmarshalLog sampleStore [⟨[2]⟩]
      ∧ listenToLogs sampleUnmarshalLog sampleStore ([⟨[1]⟩] ++ [⟨[2]⟩])
        = listenToLogs sampleUnmarshalLog sampleStore [⟨[1]⟩]
          ++ listenToLogs sampleUnmarshalLog sampleStore [⟨[2]⟩]
      ∧ listenToLogs sampleUnmarshalLog sampleStore [⟨[0]⟩] = [unmarshalFailure ⟨[0]⟩]
      ∧ reported (listenToLogs sampleUnmarshalLog sampleStore [⟨[0]⟩]) = [unmarshalFailure ⟨[0]⟩]
      ∧ lookups (listenToLogs sampleUnmarshalLog sampleStore [⟨[0]⟩]) = []
      ∧ triggers (listenToLogs sampleUnmarshalLog sampleStore [⟨[0]⟩]) = [] :=
  listenToLogs_skips_malformed sampleUnmarshalLog sampleStore [⟨[1]⟩] ⟨[0]⟩ [⟨[2]⟩]
    "unexpected end of JSON input" rfl

/-! ## The watcher lookup -/

/-- C10, as the code behaves: the query for the address `0xee` succeeds and
returns a watcher whose type is `ethlogs`, which is not `InitiatorEthLog`; the
stored watchers of that address whose type is `InitiatorEthLog` are none. The
type is tested with the regular expression of `q.Re`, which is not anchored,
where `AddJob` and `FormatLogOutput` compare the type for equality. -/
theorem initrsWithLogAndAddress_returns_other_kind :
    sampleStore.findError (logQuery ⟨"0xee"⟩) = none
      ∧ (initrsWithLogAndAddress sampleStore ⟨"0xee"⟩).1 = [⟨7, "job-b", "ethlogs", ⟨"0xee"⟩⟩]
      ∧ sampleStore.initiators.filter
          (fun i => decide (i.Address = ⟨"0xee"⟩ ∧ i.Type_ = InitiatorEthLog)) = []
      ∧ (initrsWithLogAndAddress sampleStore ⟨"0xee"⟩).1
        ≠ sampleStore.initiators.filter
          (fun i => decide (i.Address = ⟨"0xee"⟩ ∧ i.Type_ = InitiatorEthLog)) :=
  ⟨rfl, by decide, by decide, by decide⟩

/-- When the query fails, `initrsWithLogAndAddress` logs the
error and returns no watcher, and the dispatcher fires no trigger for that
notification and goes on with the next one. When the query succeeds it
returns the stored watchers whose address is the given one and whose type
matches the regular expression `InitiatorEthLog`, that is, holds that text,
in the order of the store. The type `InitiatorEthLog` itself matches; where
no stored type other than it holds the text, the watchers returned are
exactly those of the address whose type is `InitiatorEthLog`. -/
theorem initrsWithLogAndAddress_spec (st : Store) (address : Address) :
    (∀ err : GoError, st.findError (logQuery address) = some err →
        initrsWithLogAndAddress st address
            = ([], [Event.Find (logQuery address), queryFailure address err])
          ∧ ∀ (U : EthNotification → Except GoError EventLog) (l : EthNotification)
              (el : EventLog) (rest : List EthNotification),
              U l = .ok el → el.Address = address →
              listenToLogs U st (l :: rest)
                  = [Event.Find (logQuery address), queryFailure address err]
                    ++ listenToLogs U st rest
                ∧ triggers (listenToLogs U st [l]) = [])
      ∧ (st.findError (logQuery address) = none →
          initrsWithLogAndAddress st address
            = (st.initiators.filter
                (fun i => decide (i.Address = address) && MatchString InitiatorEthLog i.Type_),
              [Event.Find (logQuery address)]))
      ∧ MatchString InitiatorEthLog InitiatorEthLog = true
      ∧ (st.findError (logQuery address) = none →
          (∀ i ∈ st.initiators,
            MatchString InitiatorEthLog i.Type_ = true → i.Type_ = InitiatorEthLog) →
          (initrsWithLogAndAddress st address).1
            = st.initiators.filter
              (fun i => decide (i.Address = address ∧ i.Type_ = InitiatorEthLog))) := by
  have hok : st.findError (logQuery address) = none →
      initrsWithLogAndAddress st address
        = (st.initiators.filter
            (fun i => decide (i.Address = address) && MatchString InitiatorEthLog i.Type_),
          [Event.Find (logQuery address)]) := by
    intro hq
    rw [initrsWithLogAndAddress_ok st address hq]
    simp only [Match_logQuery]
  refine ⟨?_, hok, by decide, ?_⟩
  · intro err hq
    have herr := initrsWithLogAndAddress_error st address err hq
    refine ⟨herr, ?_⟩
    intro U l el rest hU hel
    subst hel
    constructor
    · simp only [listenToLogs, hU, herr, runEach, List.append_nil]
    · simp only [listenToLogs, hU, herr, runEach, List.append_nil]
      rfl
  · intro hq hkinds
    rw [hok hq]
    apply List.filter_congr
    intro i hi
    by_cases ha : i.Address = address
    · by_cases ht : i.Type_ = InitiatorEthLog
      · have hm : MatchString InitiatorEthLog InitiatorEthLog = true := by decide
        simp [ha, ht, hm]
      · have hm : MatchString InitiatorEthLog i.Type_ = false := by
          cases hmm : MatchString InitiatorEthLog i.Type_
          · rfl
          · exact absurd (hkinds i hi hmm) ht
        simp [ha, ht, hm]
    · simp [ha]

theorem initrsWithLogAndAddress_spec_witness :
    initrsWithLogAndAddress downStore ⟨"0xaa"⟩
        = ([], [Event.Find (logQuery ⟨"0xaa"⟩), queryFailure ⟨"0xaa"⟩ "store unavailable"])
      ∧ initrsWithLogAndAddress sampleStore ⟨"0xee"⟩
        = ([⟨7, "job-b", "ethlogs", ⟨"0xee"⟩⟩], [Event.Find (logQuery ⟨"0xee"⟩)]) :=
  ⟨((initrsWithLogAndAddress_spec downStore ⟨"0xaa"⟩).1 "store unavailable" rfl).1,
    ((initrsWithLogAndAddress_spec sampleStore ⟨"0xee"⟩).2.1 rfl).trans (by decide)⟩

/-! ## The dispatcher and the watchers of the address -/

/-- C7 fails as stated: the notification unmarshals to a log of the address
`0xee`, which no stored watcher has, so N = 0; the query engine answers the
empty result with an error, `initrsWithLogAndAddress` logs it, and the
dispatcher has reported one error, not none. -/
theorem listenToLogs_no_watcher_reports_error :
    sampleUnmarshalLog ⟨[2]⟩ = .ok ⟨⟨"0xee"⟩, [], []⟩
      ∧ rawLogWatchers emptyResultStore ⟨"0xee"⟩ = []
      ∧ triggers (listenToLogs sampleUnmarshalLog emptyResultStore [⟨[2]⟩]) = []
      ∧ reported (listenToLogs sampleUnmarshalLog emptyResultStore [⟨[2]⟩])
        = [queryFailure ⟨"0xee"⟩ "not found"]
      ∧ reported (listenToLogs sampleUnmarshalLog emptyResultStore [⟨[2]⟩]) ≠ [] :=
  ⟨rfl, by decide, by decide, by decide, by decide⟩

/-- C7, amended: take a notification that unmarshals to a log, in a store where
every type that holds the text of `InitiatorEthLog` is that type. When the
watcher query succeeds, the dispatcher hands to the run engine the job of
each stored `InitiatorEthLog` watcher of the address whose job lookup
succeeds, once each and in the order of the store, and logs one line for each
such watcher whose job lookup fails, and nothing else: a failed lookup takes
nothing from the watchers before or after it; there are as many triggers as
watchers when no lookup fails, one fewer when one fails, and neither a
trigger nor an error line when there is no watcher. When the watcher query
fails, the dispatcher logs that one error and fires no trigger, however many
watchers the address has. -/
theorem listenToLogs_fires_per_rawlog_watcher
    (U : EthNotification → Except GoError EventLog) (st : Store) (l : EthNotification)
    (el : EventLog) (hU : U l = .ok el)
    (hkinds : ∀ i ∈ st.initiators,
      MatchString InitiatorEthLog i.Type_ = true → i.Type_ = InitiatorEthLog) :
    (st.findError (logQuery el.Address) = none →
        triggers (listenToLogs U st [l])
            = (rawLogWatchers st el.Address).filterMap (foundJob st)
          ∧ reported (listenToLogs U st [l])
            = (rawLogWatchers st el.Address).filterMap (lookupFailure st)
          ∧ (triggers (listenToLogs U st [l])).length
              + (reported (listenToLogs U st [l])).length
            = (rawLogWatchers st el.Address).length
          ∧ ((∀ w ∈ rawLogWatchers st el.Address, ∃ job, st.FindJob w.JobID = .ok job) →
              (triggers (listenToLogs U st [l])).length
                = (rawLogWatchers st el.Address).length)
          ∧ ((reported (listenToLogs U st [l])).length = 1 →
              (triggers (listenToLogs U st [l])).length
                = (rawLogWatchers st el.Address).length - 1)
          ∧ (∀ (pre : List Initiator) (w : Initiator) (post : List Initiator) (err : GoError),
              rawLogWatchers st el.Address = pre ++ w :: post →
              st.FindJob w.JobID = .error err →
              triggers (listenToLogs U st [l])
                = pre.filterMap (foundJob st) ++ post.filterMap (foundJob st))
          ∧ (rawLogWatchers st el.Address = [] →
              triggers (listenToLogs U st [l]) = []
                ∧ reported (listenToLogs U st [l]) = []))
      ∧ (∀ err : GoError, st.findError (logQuery el.Address) = some err →
          triggers (listenToLogs U st [l]) = []
            ∧ reported (listenToLogs U st [l]) = [queryFailure el.Address err]) := by
  constructor
  · intro hq
    have hws : (initrsWithLogAndAddress st el.Address).1 = rawLogWatchers st el.Address :=
      (initrsWithLogAndAddress_spec st el.Address).2.2.2 hq hkinds
    have h := listenToLogs_returned_watchers U st l el hU hq
    rw [hws] at h
    exact h
  · intro err hq
    have hev : listenToLogs U st [l]
        = [Event.Find (logQuery el.Address), queryFailure el.Address err] := by
      simp only [listenToLogs, hU, initrsWithLogAndAddress_error st el.Address err hq,
        runEach, List.append_nil]
    rw [hev]
    exact ⟨rfl, rfl⟩

theorem listenToLogs_fires_per_rawlog_watcher_witness :
    triggers (listenToLogs sampleUnmarshalLog cleanStore [⟨[1]⟩]) = [jobA, jobB]
      ∧ (reported (listenToLogs sampleUnmarshalLog cleanStore [⟨[1]⟩])).length = 1
      ∧ reported (listenToLogs sampleUnmarshalLog emptyResultStore [⟨[2]⟩])
        = [queryFailure ⟨"0xee"⟩ "not found"] :=
  have h := (listenToLogs_fires_per_rawlog_watcher sampleUnmarshalLog cleanStore ⟨[1]⟩
    ⟨⟨"0xaa"⟩, [], []⟩ rfl (by decide)).1 rfl
  have h2 := (listenToLogs_fires_per_rawlog_watcher sampleUnmarshalLog emptyResultStore ⟨[2]⟩
    ⟨⟨"0xee"⟩, [], []⟩ rfl (by decide)).2 "not found" (by decide)
  ⟨h.1.trans (by decide), (congrArg List.length h.2.1).trans (by decide), h2.2⟩

end Chainlink
